import Mathlib

/-!
Verification of the block-tree-to-markdown exporter (tools/notion_export.py).

The Python source is shallowly embedded below: every function of the script
that the claims touch is translated into an executable Lean definition over
explicit data types.  Python dictionaries become structures whose optional
fields model key presence; Python exceptions become an explicit error type
threaded through `Except`; the paginated HTTP endpoint becomes an oracle
function from the optional start-cursor to a response; the unbounded
`while True` pagination loop becomes a fuel-indexed recursion that returns
`none` when the fuel is exhausted (so nontermination of the source loop is
expressible).  String helpers of Python (`*`, `split`, `strip`, `rstrip`,
`startswith`, `int`, truthiness) are modelled on `List Char` so that every
definition reduces by `rfl`/`decide`.
-/

namespace NotionExport

/-- Python `s * n` for a natural repeat count (used for the `'  ' * indent`
indentation prefix). -/
def pyStrMulNat (s : String) (n : Nat) : String :=
  match n with
  | 0 => ""
  | n + 1 => s ++ pyStrMulNat s n

/-- Python `s * n` for an integer count: a non-positive count yields the
empty string (used for `'#' * lvl` where `lvl` comes from `int(...)`). -/
def pyStrMul (s : String) (n : Int) : String :=
  if n ≤ 0 then "" else pyStrMulNat s n.toNat

/-- Python `''.join(parts)`. -/
def strConcat : List String → String
  | [] => ""
  | s :: rest => s ++ strConcat rest

/-- Truthiness of an optional Python string: `None` and `''` are falsy. -/
def strTruthy : Option String → Bool
  | none => false
  | some s => !(s == "")

/-- One rich-text run: `plain_text`, the four independent style flags of the
run (truthiness of the entries of the `annotations` dict), and the optional
`href`. -/
structure TextRun where
  plain_text : String
  bold : Bool
  italic : Bool
  strikethrough : Bool
  code : Bool
  href : Option String
deriving Repr, DecidableEq

/-- The body of the `for rt in rich_text or []` loop of `rt_to_md`: the
successive conditional re-wrappings of `txt`, in source order. -/
def renderRun (rt : TextRun) : String :=
  let txt := rt.plain_text
  let txt := if rt.code then "`" ++ txt ++ "`" else txt
  let txt := if rt.bold then "**" ++ txt ++ "**" else txt
  let txt := if rt.italic then "*" ++ txt ++ "*" else txt
  let txt := if rt.strikethrough then "~~" ++ txt ++ "~~" else txt
  match rt.href with
  | some h => if h == "" then txt else "[" ++ txt ++ "](" ++ h ++ ")"
  | none => txt

/-- `rt_to_md(rich_text)`: `rich_text` may be absent/`None` (the `or []`
guard), and the rendered runs are concatenated with no separator. -/
def rt_to_md (rich_text : Option (List TextRun)) : String :=
  strConcat ((rich_text.getD []).map renderRun)

/-- Modelled from the spec (section 4.1 wording): wrap `s` in delimiter `d`
exactly when `flag` is set. -/
def specWrap (flag : Bool) (d : String) (s : String) : String :=
  if flag then d ++ s ++ d else s

/-- Modelled from the spec (section 4.1 wording): if `href` is present
(truthy), wrap the already-styled text in a link construct. -/
def specLinkWrap (href : Option String) (s : String) : String :=
  if strTruthy href then "[" ++ s ++ "](" ++ href.getD "" ++ ")" else s

/-- Modelled from the spec (section 4.1 wording): the per-run rendering as a
nest of wraps in the fixed order code, bold, italic, strikethrough, link. -/
def specRunMd (rt : TextRun) : String :=
  specLinkWrap rt.href
    (specWrap rt.strikethrough "~~"
      (specWrap rt.italic "*"
        (specWrap rt.bold "**"
          (specWrap rt.code "`" rt.plain_text))))

/-- A Python whitespace character: the exact set `str.isspace` accepts and
`str.strip` / `str.rstrip` remove (CPython's table): tab through carriage
return (9 to 13), the separators 28 to 31, space, next line (0x85),
no-break space (0xA0), and the Unicode space separators 0x1680,
0x2000 to 0x200A, 0x2028, 0x2029, 0x202F, 0x205F, 0x3000. -/
def isPySpace (c : Char) : Bool :=
  let n := c.toNat
  (decide (9 ≤ n) && decide (n ≤ 13)) || decide (n = 32)
    || (decide (28 ≤ n) && decide (n ≤ 31)) || decide (n = 0x85) || decide (n = 0xA0)
    || decide (n = 0x1680) || (decide (0x2000 ≤ n) && decide (n ≤ 0x200A))
    || decide (n = 0x2028) || decide (n = 0x2029)
    || decide (n = 0x202F) || decide (n = 0x205F) || decide (n = 0x3000)

/-- Python `str.strip()` on a character list: drop whitespace at both ends. -/
def wsTrim (l : List Char) : List Char :=
  ((l.dropWhile isPySpace).reverse.dropWhile isPySpace).reverse

/-- Python `str.strip()`. -/
def pyStrip (s : String) : String := (wsTrim s.toList).asString

/-- Python `str.rstrip()`. -/
def pyRstrip (s : String) : String :=
  ((s.toList.reverse.dropWhile isPySpace).reverse).asString

/-- Character-list prefix test (structured so that an empty pattern returns
true without inspecting the other list). -/
def isPre : List Char → List Char → Bool
  | [], _ => true
  | _ :: _, [] => false
  | c :: cs, d :: ds => c == d && isPre cs ds

/-- Python `t.startswith(p)`. -/
def pyStartsWith (t p : String) : Bool :=
  isPre p.toList t.toList

/-- Python `t.split(sep)` for a one-character separator, on character
lists: the empty input gives one empty field, and each separator occurrence
opens a new field. -/
def splitCh (sep : Char) : List Char → List (List Char)
  | [] => [[]]
  | c :: cs =>
    if c = sep then [] :: splitCh sep cs
    else
      match splitCh sep cs with
      | [] => [[c]]
      | h :: t => (c :: h) :: t

/-- The numeric value of a decimal digit list (most significant first). -/
def digitsVal (l : List Char) : Nat :=
  l.foldl (fun a c => a * 10 + (c.toNat - 48)) 0

/-- A nonempty all-digit list parses to its value; anything else fails. -/
def digitsParse (l : List Char) : Option Nat :=
  if l ≠ [] ∧ l.all Char.isDigit then some (digitsVal l) else none

/-- Python `int(s)` on a character list: strip whitespace, allow one
leading sign, then require a nonempty run of decimal digits; `none` is the
`ValueError` outcome. -/
def pyInt (l : List Char) : Option Int :=
  match wsTrim l with
  | [] => none
  | c :: rest =>
    if c = '+' then (digitsParse rest).map (fun n => (n : Int))
    else if c = '-' then (digitsParse rest).map (fun n => -(n : Int))
    else (digitsParse (c :: rest)).map (fun n => (n : Int))

/-- The Python exceptions `block_to_md` can raise: `int()` on a non-numeric
heading suffix, and a `block[t]` lookup on a missing payload key. -/
inductive PyErr where
  | valueError
  | keyError
deriving Repr, DecidableEq

/-- The type-keyed payload dict of a block (`block[t]`).  Each field models
one key the script reads: the outer `Option` is key presence, and for
`rich_text` the inner `Option` models an explicit `None` value (both give
`''` through the `or []` guard of `rt_to_md`). -/
structure Payload where
  rich_text : Option (Option (List TextRun))
  checked : Option Bool
  language : Option String
  title : Option String
deriving Repr, DecidableEq

/-- One content block as the script reads it: `id`, the `type` string, the
value of the key named by `type` (absent key modelled by `none`), and the
truthiness of `has_children`. -/
structure Block where
  id : String
  type : String
  payload : Option Payload
  has_children : Bool
deriving Repr, DecidableEq

/-- `block_to_md(block, indent)`: dispatch on the type string, in source
order.  The heading branch parses `int(t.split(chr(95))[1])` before touching
the payload, so a bad suffix raises `ValueError`; every recognized branch
raises `KeyError` when the payload key is missing (`block[t]`); the fallback
uses `block.get(t, dict())` and so never raises. -/
def block_to_md (block : Block) (indent : Nat) : Except PyErr String :=
  let t := block.type
  let pre := pyStrMulNat "  " indent
  if pyStartsWith t "heading_" then
    match pyInt ((splitCh '_' t.toList).getD 1 []) with
    | none => .error .valueError
    | some lvl =>
      match block.payload with
      | none => .error .keyError
      | some p => .ok (pyStrMul "#" lvl ++ " " ++ rt_to_md (p.rich_text.getD none) ++ "\n")
  else if t == "paragraph" then
    match block.payload with
    | none => .error .keyError
    | some p =>
      let txt := rt_to_md (p.rich_text.getD none)
      .ok (if pyStrip txt == "" then "\n" else pre ++ txt ++ "\n\n")
  else if t == "bulleted_list_item" || t == "numbered_list_item" then
    match block.payload with
    | none => .error .keyError
    | some p =>
      let marker := if t == "bulleted_list_item" then "-" else "1."
      .ok (pre ++ marker ++ " " ++ rt_to_md (p.rich_text.getD none) ++ "\n")
  else if t == "to_do" then
    match block.payload with
    | none => .error .keyError
    | some p =>
      let box := if p.checked.getD false then "x" else " "
      .ok (pre ++ "- [" ++ box ++ "] " ++ rt_to_md (p.rich_text.getD none) ++ "\n")
  else if t == "quote" then
    match block.payload with
    | none => .error .keyError
    | some p => .ok ("> " ++ rt_to_md (p.rich_text.getD none) ++ "\n\n")
  else if t == "code" then
    match block.payload with
    | none => .error .keyError
    | some p =>
      .ok ("```" ++ p.language.getD "" ++ "\n" ++ rt_to_md (p.rich_text.getD none) ++ "\n```\n\n")
  else if t == "child_page" then
    match block.payload with
    | none => .error .keyError
    | some p => .ok ("- " ++ p.title.getD "" ++ "\n")
  else
    match block.payload with
    | none => .ok ""
    | some p =>
      match p.rich_text with
      | none => .ok ""
      | some rv =>
        let txt := rt_to_md rv
        .ok (if pyStrip txt == "" then "" else pre ++ txt ++ "\n\n")

/-- One page of the paginated children listing: the `results` items, the
truthiness of `has_more`, and the `next_cursor` value (possibly null). -/
structure Resp (α : Type) where
  results : List α
  has_more : Bool
  next_cursor : Option String
deriving Repr, DecidableEq

/-- The `start_cursor` query parameter actually sent for a given loop cursor
value: a falsy cursor (null or empty) sends no parameter, exactly the
conditional string build of the source. -/
def reqOf : Option String → Option String
  | none => none
  | some s => if s == "" then none else some s

/-- The `while True` pagination loop of `get_all_children`, with explicit
fuel.  `fetch` is the endpoint, taking the optional `start_cursor`; the
accumulated `out` list and the number of issued fetches are threaded
through; exhausted fuel returns `none` (the source loop would still be
running). -/
def getAllAux {α : Type} (fetch : Option String → Resp α) :
    Nat → Option String → List α → Nat → Option (List α × Nat)
  | 0, _, _, _ => none
  | fuel + 1, cursor, out, calls =>
    let res := fetch (reqOf cursor)
    let out2 := out ++ res.results
    if res.has_more then getAllAux fetch fuel res.next_cursor out2 (calls + 1)
    else some (out2, calls + 1)

/-- `get_all_children(block_id)` against the endpoint `fetch`, with fuel:
`some (children, fetchCount)` when the loop finishes within `fuel`
iterations. -/
def get_all_children {α : Type} (fetch : Option String → Resp α) (fuel : Nat) :
    Option (List α × Nat) :=
  getAllAux fetch fuel none [] 0

/-- The chain of responses the loop would see starting from loop cursor `c`:
index 0 is the response to the request built from `c`, and index `k + 1`
continues from the `next_cursor` of the head response. -/
def chainC {α : Type} (fetch : Option String → Resp α) : Option String → Nat → Resp α
  | c, 0 => fetch (reqOf c)
  | c, k + 1 => chainC fetch (fetch (reqOf c)).next_cursor k

/-- The chain of responses of a full `get_all_children` run (cursor starts
null). -/
def pageChain {α : Type} (fetch : Option String → Resp α) (k : Nat) : Resp α :=
  chainC fetch none k

/-- Render a list of blocks at a fixed indent, propagating the first
exception (the inner `for k in kids` loop of `export_page`). -/
def renderAll (indent : Nat) : List Block → Except PyErr (List String)
  | [] => .ok []
  | k :: ks =>
    match block_to_md k indent with
    | .error e => .error e
    | .ok s =>
      match renderAll indent ks with
      | .error e => .error e
      | .ok ss => .ok (s :: ss)

/-- One iteration of the `for b in blocks` loop of `export_page`: render the
block at indent 0; when it has children and is not a child page, fetch its
children (recorded in the second component), render them at indent 1 and
append a trailing blank line.  `kids` is the oracle giving the (already
de-paginated) child list of a block id. -/
def exportStep (kids : String → List Block) (b : Block) :
    Except PyErr (String × List String) :=
  match block_to_md b 0 with
  | .error e => .error e
  | .ok s =>
    if b.has_children && !(b.type == "child_page") then
      match renderAll 1 (kids b.id) with
      | .error e => .error e
      | .ok rs => .ok (s ++ strConcat rs ++ "\n", [b.id])
    else .ok (s, [])

/-- The whole `for b in blocks` loop, collecting each iteration's markdown
contribution and fetched ids. -/
def exportList (kids : String → List Block) : List Block → Except PyErr (List (String × List String))
  | [] => .ok []
  | b :: bs =>
    match exportStep kids b with
    | .error e => .error e
    | .ok g =>
      match exportList kids bs with
      | .error e => .error e
      | .ok gs => .ok (g :: gs)

/-- `export_page(page_id, title, out_path)` up to the file write: the
written content (`rstrip` plus one newline) and the list of block ids whose
children were fetched (beyond the page itself). -/
def export_page (kids : String → List Block) (page_id title : String) :
    Except PyErr (String × List String) :=
  match exportList kids (kids page_id) with
  | .error e => .error e
  | .ok groups =>
    .ok (pyRstrip ("# " ++ title ++ "\n\n" ++ strConcat (groups.map Prod.fst)) ++ "\n",
      (groups.map Prod.snd).flatten)

/-- One manifest entry: title and destination path. -/
structure ManifestEntry where
  title : String
  path : String
deriving Repr, DecidableEq

/-- The `for page_id, meta in mapping.items()` loop of `main`: export each
page in order, aborting on the first exception; collects path and content
per entry. -/
def runManifest (kids : String → List Block) :
    List (String × ManifestEntry) → Except PyErr (List (String × String))
  | [] => .ok []
  | (pid, m) :: rest =>
    match export_page kids pid m.title with
    | .error e => .error e
    | .ok r =>
      match runManifest kids rest with
      | .error e => .error e
      | .ok others => .ok ((m.path, r.1) :: others)

/-- The observable outcome of `main`: either the early fatal exit (exit
code and stderr diagnostic, no fetches and no manifest processing), or the
result of processing the manifest. -/
inductive MainOutcome where
  | fatal (code : Nat) (err : String)
  | finished (r : Except PyErr (List (String × String)))
deriving Repr

/-- `main()`: the `if not NOTION_KEY` guard (`key` is the environment
variable, `none` when unset; an empty value is falsy too) runs before the
manifest is read or any fetch happens. -/
def main (key : Option String) (kids : String → List Block)
    (manifest : List (String × ManifestEntry)) : MainOutcome :=
  if strTruthy key = false then .fatal 2 "Missing NOTION_KEY"
  else .finished (runManifest kids manifest)

/-! Concrete fixtures used by the witness theorems. -/

/-- A run with no style flags and no link target. -/
def wRun (s : String) : TextRun := ⟨s, false, false, false, false, none⟩

/-- A payload whose rich text is one plain run. -/
def wPayloadOf (s : String) : Payload := ⟨some (some [wRun s]), none, none, none⟩

/-- A paragraph block with children (id b1). -/
def wBlk1 : Block := ⟨"b1", "paragraph", some (wPayloadOf "hi"), true⟩

/-- A child-page block that also reports children (id b2). -/
def wBlk2 : Block := ⟨"b2", "child_page", some ⟨none, none, none, some "Sub"⟩, true⟩

/-- A child of b1 that itself reports children (id k1). -/
def wKid : Block := ⟨"k1", "paragraph", some (wPayloadOf "k"), true⟩

/-- A children oracle: the page has two blocks and b1 has one child. -/
def wKids : String → List Block := fun s =>
  if s == "page" then [wBlk1, wBlk2]
  else if s == "b1" then [wKid]
  else []

/-- Same oracle, except the ids that must never be fetched (the child page
b2 and the grandchild level k1) now answer differently. -/
def wKids2 : String → List Block := fun s =>
  if s == "page" then [wBlk1, wBlk2]
  else if s == "b1" then [wKid]
  else if s == "b2" then [wBlk1]
  else if s == "k1" then [wBlk2]
  else []

/-- An endpoint whose very first page says has_more is false. -/
def wFetchStop : Option String → Resp String := fun _ => ⟨["a"], false, none⟩

/-- An endpoint that always says has_more is true with a null cursor. -/
def wFetchLoop : Option String → Resp Nat := fun _ => ⟨[], true, none⟩

/-- A whitespace-only paragraph block. -/
def wParaWS : Block := ⟨"p1", "paragraph", some (wPayloadOf "  "), false⟩

/-- A paragraph block with visible text. -/
def wParaTxt : Block := ⟨"p2", "paragraph", some (wPayloadOf "hi"), false⟩

/-- An unrecognized-type block with visible rich text. -/
def wCallTxt : Block := ⟨"c1", "callout", some (wPayloadOf "c"), false⟩

/-- An unrecognized-type block with whitespace-only rich text. -/
def wCallWS : Block := ⟨"c2", "callout", some (wPayloadOf " "), false⟩

/-- An unrecognized-type block whose payload has no rich-text field. -/
def wCallNoRT : Block := ⟨"c3", "callout", some ⟨none, none, none, none⟩, false⟩

/-- An unrecognized-type block with no payload at the type key. -/
def wCallNoPl : Block := ⟨"c4", "callout", none, false⟩

/-- A block whose type starts with the heading prefix but whose suffix is
not numeric. -/
def wBadHeading : Block := ⟨"b0", "heading_zzz", some (wPayloadOf "x"), false⟩

/-- A one-entry manifest. -/
def wManifest : List (String × ManifestEntry) := [("page", ⟨"T", "out/x.md"⟩)]

/-! Helper lemmas. -/

lemma renderRun_eq_specRunMd (rt : TextRun) : renderRun rt = specRunMd rt := by
  rcases rt with ⟨s, b, i, st, c, href⟩
  cases href with
  | none =>
    simp [renderRun, specRunMd, specWrap, specLinkWrap, strTruthy]
  | some h =>
    by_cases hh : h = "" <;>
      simp [renderRun, specRunMd, specWrap, specLinkWrap, strTruthy, hh]

lemma dropWhile_eq_self_of_all {p : Char → Bool} :
    ∀ {l : List Char}, (∀ c ∈ l, p c = false) → l.dropWhile p = l := by
  intro l h
  cases l with
  | nil => rfl
  | cons c cs =>
    rw [List.dropWhile_cons, h c (List.mem_cons_self c cs)]
    simp

lemma wsTrim_of_no_space {l : List Char} (h : ∀ c ∈ l, isPySpace c = false) :
    wsTrim l = l := by
  unfold wsTrim
  rw [dropWhile_eq_self_of_all h]
  rw [dropWhile_eq_self_of_all (fun c hc => h c (List.mem_reverse.mp hc))]
  exact List.reverse_reverse l

lemma not_space_of_digit {c : Char} (h : c.isDigit = true) : isPySpace c = false := by
  have hb : 48 ≤ c.toNat ∧ c.toNat ≤ 57 := by
    simp only [Char.isDigit, Bool.and_eq_true, decide_eq_true_eq] at h
    exact ⟨h.1, h.2⟩
  rw [← Bool.not_eq_true]
  simp only [isPySpace, Bool.or_eq_true, Bool.and_eq_true, decide_eq_true_eq]
  omega

lemma digitsParse_of_digits {l : List Char} (h1 : l ≠ []) (h2 : l.all Char.isDigit = true) :
    digitsParse l = some (digitsVal l) := by
  unfold digitsParse
  rw [if_pos ⟨h1, h2⟩]

lemma pyInt_of_digits {l : List Char} (h1 : l ≠ []) (h2 : l.all Char.isDigit = true) :
    pyInt l = some ((digitsVal l : Nat) : Int) := by
  have hws : wsTrim l = l :=
    wsTrim_of_no_space (fun c hc => not_space_of_digit (List.all_eq_true.mp h2 c hc))
  cases l with
  | nil => exact absurd rfl h1
  | cons d rest =>
    have hd : d.isDigit = true := List.all_eq_true.mp h2 d (List.mem_cons_self d rest)
    have hplus : d ≠ '+' := by rintro rfl; exact absurd hd (by decide)
    have hminus : d ≠ '-' := by rintro rfl; exact absurd hd (by decide)
    unfold pyInt
    rw [hws]
    simp only [hplus, hminus, if_false, if_neg hplus, if_neg hminus]
    rw [digitsParse_of_digits h1 h2]
    rfl

lemma splitCh_no_sep {sep : Char} :
    ∀ {l : List Char}, (∀ c ∈ l, c ≠ sep) → splitCh sep l = [l] := by
  intro l
  induction l with
  | nil => intro _; rfl
  | cons c cs ih =>
    intro h
    rw [splitCh, if_neg (h c (List.mem_cons_self c cs)),
      ih (fun x hx => h x (List.mem_cons_of_mem c hx))]

lemma splitCh_append_sep {sep : Char} :
    ∀ (l1 l2 : List Char), (∀ c ∈ l1, c ≠ sep) →
      splitCh sep (l1 ++ sep :: l2) = l1 :: splitCh sep l2 := by
  intro l1
  induction l1 with
  | nil =>
    intro l2 _
    simp [splitCh]
  | cons c cs ih =>
    intro l2 h
    rw [List.cons_append, splitCh, if_neg (h c (List.mem_cons_self c cs)),
      ih l2 (fun x hx => h x (List.mem_cons_of_mem c hx))]

lemma pyStrMul_natCast (s : String) (n : Nat) :
    pyStrMul s (n : Int) = pyStrMulNat s n := by
  unfold pyStrMul
  by_cases h : (n : Int) ≤ 0
  · have hn : n = 0 := by omega
    subst hn
    rfl
  · rw [if_neg h, Int.toNat_natCast]

lemma chainC_succ {α : Type} (fetch : Option String → Resp α) (c : Option String) (k : Nat) :
    chainC fetch c (k + 1) = chainC fetch (fetch (reqOf c)).next_cursor k := rfl

lemma getAllAux_stop {α : Type} (fetch : Option String → Resp α) :
    ∀ (k : Nat) (c : Option String) (out : List α) (calls fuel : Nat),
      k + 1 ≤ fuel →
      (chainC fetch c k).has_more = false →
      (∀ i, i < k → (chainC fetch c i).has_more = true) →
      getAllAux fetch fuel c out calls
        = some (out ++ ((List.range (k + 1)).map (fun i => (chainC fetch c i).results)).flatten,
            calls + (k + 1)) := by
  intro k
  induction k with
  | zero =>
    intro c out calls fuel hfuel hstop _
    cases fuel with
    | zero => omega
    | succ f =>
      have h0 : (fetch (reqOf c)).has_more = false := hstop
      simp only [getAllAux, h0, Bool.false_eq_true, if_false]
      simp [List.range_succ, chainC]
  | succ k ih =>
    intro c out calls fuel hfuel hstop hmore
    cases fuel with
    | zero => omega
    | succ f =>
      have h0 : (fetch (reqOf c)).has_more = true := hmore 0 (Nat.succ_pos k)
      simp only [getAllAux, h0, if_true]
      rw [ih (fetch (reqOf c)).next_cursor (out ++ (fetch (reqOf c)).results) (calls + 1) f
        (by omega) hstop (fun i hi => hmore (i + 1) (by omega))]
      congr 1
      congr 1
      · rw [List.append_assoc]
        conv_rhs => rw [List.range_succ_eq_map]
        simp only [List.map_cons, List.map_map, List.flatten_cons]
        rfl
      · omega

lemma getAllAux_never {α : Type} (fetch : Option String → Resp α) :
    ∀ (fuel : Nat) (c : Option String) (out : List α) (calls : Nat),
      (∀ i, (chainC fetch c i).has_more = true) →
      getAllAux fetch fuel c out calls = none := by
  intro fuel
  induction fuel with
  | zero => intro c out calls _; rfl
  | succ f ih =>
    intro c out calls h
    have h0 : (fetch (reqOf c)).has_more = true := h 0
    simp only [getAllAux, h0, if_true]
    exact ih _ _ _ (fun i => h (i + 1))

lemma block_to_md_heading (t : String) (ht : pyStartsWith t "heading_" = true)
    (pl : Option Payload) (id1 : String) (hc : Bool) (indent : Nat) :
    block_to_md ⟨id1, t, pl, hc⟩ indent
      = match pyInt ((splitCh '_' t.toList).getD 1 []) with
        | none => .error .valueError
        | some lvl =>
          match pl with
          | none => .error .keyError
          | some p =>
            .ok (pyStrMul "#" lvl ++ " " ++ rt_to_md (p.rich_text.getD none) ++ "\n") := by
  simp only [block_to_md, ht, if_true]

lemma block_to_md_fallback (t : String)
    (h0 : pyStartsWith t "heading_" = false)
    (h1 : t ≠ "paragraph") (h2 : t ≠ "bulleted_list_item") (h3 : t ≠ "numbered_list_item")
    (h4 : t ≠ "to_do") (h5 : t ≠ "quote") (h6 : t ≠ "code") (h7 : t ≠ "child_page")
    (pl : Option Payload) (id1 : String) (hc : Bool) (indent : Nat) :
    block_to_md ⟨id1, t, pl, hc⟩ indent
      = match pl with
        | none => .ok ""
        | some p =>
          match p.rich_text with
          | none => .ok ""
          | some rv =>
            .ok (if pyStrip (rt_to_md rv) == "" then ""
                 else pyStrMulNat "  " indent ++ rt_to_md rv ++ "\n\n") := by
  simp only [block_to_md, h0, h1, h2, h3, h4, h5, h6, h7, Bool.false_eq_true, if_false,
    beq_iff_eq, Bool.or_eq_true, or_self, Bool.not_eq_true]

lemma exportStep_snd (kids : String → List Block) (b : Block) (g : String × List String)
    (h : exportStep kids b = .ok g) :
    g.2 = if b.has_children && !(b.type == "child_page") then [b.id] else [] := by
  unfold exportStep at h
  split at h
  · exact absurd h (by simp)
  · split at h
    next hc =>
      split at h
      · exact absurd h (by simp)
      · cases h
        rw [if_pos hc]
    next hc =>
      cases h
      rw [if_neg hc]

lemma exportList_snd (kids : String → List Block) :
    ∀ (bs : List Block) (gs : List (String × List String)),
      exportList kids bs = .ok gs →
      (gs.map Prod.snd).flatten
        = (bs.filter (fun b => b.has_children && !(b.type == "child_page"))).map Block.id := by
  intro bs
  induction bs with
  | nil =>
    intro gs h
    cases h
    rfl
  | cons b bs ih =>
    intro gs h
    unfold exportList at h
    split at h
    · exact absurd h (by simp)
    next g hstep =>
      split at h
      · exact absurd h (by simp)
      next gs' hrest =>
        cases h
        have hsnd := exportStep_snd kids b g hstep
        by_cases hc : (b.has_children && !(b.type == "child_page")) = true
        · rw [if_pos hc] at hsnd
          simp only [List.map_cons, List.flatten_cons, hsnd, List.filter_cons, hc, if_true,
            List.map_cons]
          rw [ih gs' hrest]
          rfl
        · have hc' : (b.has_children && !(b.type == "child_page")) = false := by
            revert hc; cases (b.has_children && !(b.type == "child_page")) <;> simp
          rw [if_neg hc] at hsnd
          simp only [List.map_cons, List.flatten_cons, hsnd, List.filter_cons, hc',
            Bool.false_eq_true, if_false, List.nil_append]
          exact ih gs' hrest

lemma exportStep_congr (kids kids' : String → List Block) (b : Block)
    (h : (b.has_children && !(b.type == "child_page")) = true → kids b.id = kids' b.id) :
    exportStep kids b = exportStep kids' b := by
  unfold exportStep
  cases block_to_md b 0 with
  | error e => rfl
  | ok s =>
    by_cases hc : (b.has_children && !(b.type == "child_page")) = true
    · simp only [hc, if_true]
      rw [h hc]
    · have hc' : (b.has_children && !(b.type == "child_page")) = false := by
        revert hc; cases (b.has_children && !(b.type == "child_page")) <;> simp
      simp only [hc', Bool.false_eq_true, if_false]

lemma exportList_congr (kids kids' : String → List Block) :
    ∀ (bs : List Block),
      (∀ b ∈ bs, (b.has_children && !(b.type == "child_page")) = true → kids b.id = kids' b.id) →
      exportList kids bs = exportList kids' bs := by
  intro bs
  induction bs with
  | nil => intro _; rfl
  | cons b bs ih =>
    intro h
    unfold exportList
    rw [exportStep_congr kids kids' b (h b (List.mem_cons_self b bs)),
      ih (fun x hx => h x (List.mem_cons_of_mem b hx))]

lemma export_page_ok (kids : String → List Block) (page_id title : String)
    (groups : List (String × List String))
    (h : exportList kids (kids page_id) = .ok groups) :
    export_page kids page_id title
      = .ok (pyRstrip ("# " ++ title ++ "\n\n" ++ strConcat (groups.map Prod.fst)) ++ "\n",
          (groups.map Prod.snd).flatten) := by
  unfold export_page
  rw [h]

lemma export_page_err (kids : String → List Block) (page_id title : String) (e : PyErr)
    (h : exportList kids (kids page_id) = .error e) :
    export_page kids page_id title = .error e := by
  unfold export_page
  rw [h]

/-! The claim theorems. -/

/-- C1: for every text run, the inline renderer applies style wrapping in
the fixed order code-span, then bold, then italic, then strikethrough, and
finally (when an href is present, i.e. truthy) wraps the styled text in a
link construct; each wrap is applied exactly when its flag is set, and
`rt_to_md` concatenates the runs rendered this way. -/
theorem C1_rt_to_md_fixed_wrap_order (rts : List TextRun) :
    rt_to_md (some rts) = strConcat (rts.map specRunMd) := by
  unfold rt_to_md
  simp only [Option.getD_some]
  induction rts with
  | nil => rfl
  | cons r rs ih =>
    simp only [List.map_cons, strConcat, renderRun_eq_specRunMd r, ih]

/-- C8: for a run with all four style flags unset and no href, inline
rendering is the identity on the plain text. -/
theorem C8_plain_run_identity (s : String) :
    rt_to_md (some [⟨s, false, false, false, false, none⟩]) = s := by
  simp [rt_to_md, strConcat, renderRun]

/-- C3: `get_all_children` follows the continuation cursor until a page
reports has_more false and returns the concatenation of the pages' results
in received order; the number of fetches is the index of the stopping page
plus one, so a first page with has_more false yields exactly that page's
results with a single fetch. -/
theorem C3_get_all_children_concat {α : Type} (fetch : Option String → Resp α)
    (k fuel : Nat)
    (hstop : (pageChain fetch k).has_more = false)
    (hmore : ∀ i, i < k → (pageChain fetch i).has_more = true)
    (hfuel : k + 1 ≤ fuel) :
    get_all_children fetch fuel
      = some (((List.range (k + 1)).map (fun i => (pageChain fetch i).results)).flatten,
          k + 1) := by
  unfold pageChain at hstop hmore
  unfold get_all_children
  rw [getAllAux_stop fetch k none [] 0 fuel hfuel hstop hmore]
  simp [pageChain]

/-- Witness for C3: a one-page endpoint yields exactly that page's results
with one fetch. -/
theorem C3_get_all_children_concat_witness :
    (pageChain wFetchStop 0).has_more = false
    ∧ get_all_children wFetchStop 1 = some (["a"], 1) := by
  refine ⟨rfl, ?_⟩
  exact C3_get_all_children_concat wFetchStop 0 1 rfl
    (fun i hi => absurd hi (Nat.not_lt_zero i)) (Nat.le_refl 1)

/-- C10: one fetch per loop iteration, stopping exactly at the first page
with falsy has_more (the fetch count is that page's position); when a page
has has_more true and a null next_cursor, the follow-up request carries the
same absent start_cursor as the initial request, and the loop never
terminates unless some page reports has_more falsy. -/
theorem C10_fetch_count_and_nontermination {α : Type} (fetch : Option String → Resp α) :
    (∀ k fuel, (pageChain fetch k).has_more = false →
        (∀ i, i < k → (pageChain fetch i).has_more = true) → k + 1 ≤ fuel →
        (get_all_children fetch fuel).map Prod.snd = some (k + 1))
    ∧ ((∀ i, (pageChain fetch i).has_more = true) →
        ∀ fuel, get_all_children fetch fuel = none)
    ∧ ((fetch none).has_more = true → (fetch none).next_cursor = none →
        reqOf (fetch none).next_cursor = reqOf none
        ∧ ∀ fuel, get_all_children fetch fuel = none) := by
  refine ⟨?_, ?_, ?_⟩
  · intro k fuel hstop hmore hfuel
    unfold pageChain at hstop hmore
    unfold get_all_children
    rw [getAllAux_stop fetch k none [] 0 fuel hfuel hstop hmore]
    simp
  · intro h fuel
    exact getAllAux_never fetch fuel none [] 0 (fun i => h i)
  · intro h1 h2
    refine ⟨by rw [h2], ?_⟩
    have hall : ∀ i, (chainC fetch none i).has_more = true := by
      intro i
      induction i with
      | zero => exact h1
      | succ j ihj =>
        have hs : chainC fetch none (j + 1)
            = chainC fetch (fetch (reqOf none)).next_cursor j := rfl
        rw [hs, show (fetch (reqOf none)).next_cursor = none from h2]
        exact ihj
    intro fuel
    exact getAllAux_never fetch fuel none [] 0 hall

/-- Witness for C10: the constant has_more true, null cursor endpoint never
terminates, and a one-page endpoint is fetched exactly once. -/
theorem C10_fetch_count_and_nontermination_witness :
    get_all_children wFetchLoop 5 = none
    ∧ (get_all_children wFetchStop 1).map Prod.snd = some 1 := by
  constructor
  · exact ((C10_fetch_count_and_nontermination wFetchLoop).2.2 rfl rfl).2 5
  · exact (C10_fetch_count_and_nontermination wFetchStop).1 0 1 rfl
      (fun i hi => absurd hi (Nat.not_lt_zero i)) (Nat.le_refl 1)

/-- C5: a paragraph whose inline-rendered text strips to empty renders as
exactly one newline character with no indentation prefix; a paragraph with
visible text renders as indentation prefix, text, and two trailing
newlines, at every indentation level. -/
theorem C5_paragraph_blank (p : Payload) (id1 : String) (hc : Bool) (indent : Nat) :
    (pyStrip (rt_to_md (p.rich_text.getD none)) = "" →
      block_to_md ⟨id1, "paragraph", some p, hc⟩ indent = .ok "\n")
    ∧ (pyStrip (rt_to_md (p.rich_text.getD none)) ≠ "" →
      block_to_md ⟨id1, "paragraph", some p, hc⟩ indent
        = .ok (pyStrMulNat "  " indent ++ rt_to_md (p.rich_text.getD none) ++ "\n\n")) := by
  have hstep : block_to_md ⟨id1, "paragraph", some p, hc⟩ indent
      = .ok (if pyStrip (rt_to_md (p.rich_text.getD none)) == "" then "\n"
             else pyStrMulNat "  " indent ++ rt_to_md (p.rich_text.getD none) ++ "\n\n") := rfl
  constructor
  · intro h
    rw [hstep]
    simp [h]
  · intro h
    rw [hstep]
    simp [h]

/-- Witness for C5: a whitespace-only paragraph at indent four gives one
newline; a paragraph reading hi at indent two gives the indented text with
two newlines. -/
theorem C5_paragraph_blank_witness :
    block_to_md wParaWS 4 = .ok "\n"
    ∧ block_to_md wParaTxt 2 = .ok "    hi\n\n" := by
  constructor
  · exact (C5_paragraph_blank (wPayloadOf "  ") "p1" false 4).1 rfl
  · exact (C5_paragraph_blank (wPayloadOf "hi") "p2" false 2).2 (by decide)

/-- C6: a block whose type is not dispatched (no heading prefix, none of
the recognized names) renders through the fallback: with a rich-text field
whose rendering strips to empty it yields the empty string (not a newline),
with visible text it yields indentation prefix, text, and two newlines, and
with no rich-text field (or no payload) it yields the empty string. -/
theorem C6_fallback_emptiness (t : String)
    (h0 : pyStartsWith t "heading_" = false)
    (h1 : t ≠ "paragraph") (h2 : t ≠ "bulleted_list_item") (h3 : t ≠ "numbered_list_item")
    (h4 : t ≠ "to_do") (h5 : t ≠ "quote") (h6 : t ≠ "code") (h7 : t ≠ "child_page")
    (id1 : String) (hc : Bool) (indent : Nat) :
    (block_to_md ⟨id1, t, none, hc⟩ indent = .ok "")
    ∧ (∀ p : Payload, p.rich_text = none → block_to_md ⟨id1, t, some p, hc⟩ indent = .ok "")
    ∧ (∀ (p : Payload) (rv : Option (List TextRun)), p.rich_text = some rv →
        pyStrip (rt_to_md rv) = "" → block_to_md ⟨id1, t, some p, hc⟩ indent = .ok "")
    ∧ (∀ (p : Payload) (rv : Option (List TextRun)), p.rich_text = some rv →
        pyStrip (rt_to_md rv) ≠ "" →
        block_to_md ⟨id1, t, some p, hc⟩ indent
          = .ok (pyStrMulNat "  " indent ++ rt_to_md rv ++ "\n\n")) := by
  refine ⟨?_, ?_, ?_, ?_⟩
  · rw [block_to_md_fallback t h0 h1 h2 h3 h4 h5 h6 h7 none id1 hc indent]
  · intro p hrt
    rw [block_to_md_fallback t h0 h1 h2 h3 h4 h5 h6 h7 (some p) id1 hc indent]
    simp only [hrt]
  · intro p rv hrt hws
    rw [block_to_md_fallback t h0 h1 h2 h3 h4 h5 h6 h7 (some p) id1 hc indent]
    simp only [hrt]
    simp [hws]
  · intro p rv hrt hws
    rw [block_to_md_fallback t h0 h1 h2 h3 h4 h5 h6 h7 (some p) id1 hc indent]
    simp only [hrt]
    simp [hws]

/-- Witness for C6 at the unrecognized type callout: no payload, no
rich-text field, whitespace-only text, and visible text. -/
theorem C6_fallback_emptiness_witness :
    block_to_md wCallNoPl 1 = .ok ""
    ∧ block_to_md wCallNoRT 1 = .ok ""
    ∧ block_to_md wCallWS 1 = .ok ""
    ∧ block_to_md wCallTxt 1 = .ok "  c\n\n" := by
  refine ⟨?_, ?_, ?_, ?_⟩
  · exact (C6_fallback_emptiness "callout" rfl (by decide) (by decide) (by decide) (by decide)
      (by decide) (by decide) (by decide) "c4" false 1).1
  · exact (C6_fallback_emptiness "callout" rfl (by decide) (by decide) (by decide) (by decide)
      (by decide) (by decide) (by decide) "c3" false 1).2.1 ⟨none, none, none, none⟩ rfl
  · exact (C6_fallback_emptiness "callout" rfl (by decide) (by decide) (by decide) (by decide)
      (by decide) (by decide) (by decide) "c2" false 1).2.2.1 (wPayloadOf " ")
      (some [wRun " "]) rfl rfl
  · exact (C6_fallback_emptiness "callout" rfl (by decide) (by decide) (by decide) (by decide)
      (by decide) (by decide) (by decide) "c1" false 1).2.2.2 (wPayloadOf "c")
      (some [wRun "c"]) rfl (by decide)

/-- C4 counterexample: a block of the unrecognized type heading_zzz, whose
payload even contains a rich-text field, makes block_to_md raise ValueError
(the prefix dispatch runs int on the non-numeric suffix), so it is not true
that every unrecognized type string degrades to best-effort text or
silence. -/
theorem C4_unknown_type_raises_cex :
    block_to_md wBadHeading 0 = .error .valueError := rfl

/-- C4 (amended): for every block whose type string is not one of the
recognized variants and does not start with the heading prefix,
block_to_md never raises, for every payload and indentation: it returns a
best-effort rendering or the empty string. -/
theorem C4_fallback_total (t : String)
    (h0 : pyStartsWith t "heading_" = false)
    (h1 : t ≠ "paragraph") (h2 : t ≠ "bulleted_list_item") (h3 : t ≠ "numbered_list_item")
    (h4 : t ≠ "to_do") (h5 : t ≠ "quote") (h6 : t ≠ "code") (h7 : t ≠ "child_page")
    (pl : Option Payload) (id1 : String) (hc : Bool) (indent : Nat) :
    (block_to_md ⟨id1, t, pl, hc⟩ indent).isOk = true := by
  rw [block_to_md_fallback t h0 h1 h2 h3 h4 h5 h6 h7 pl id1 hc indent]
  cases pl with
  | none => rfl
  | some p =>
    cases hrt : p.rich_text with
    | none => simp only [hrt]; rfl
    | some rv =>
      simp only [hrt]
      split <;> rfl

/-- Witness for C4 (amended) at the unrecognized type callout. -/
theorem C4_fallback_total_witness :
    (block_to_md wCallTxt 0).isOk = true := by
  exact C4_fallback_total "callout" rfl (by decide) (by decide) (by decide) (by decide)
    (by decide) (by decide) (by decide) (some (wPayloadOf "c")) "c1" false 0

/-- C9: a block whose type is the heading prefix followed by a decimal
numeral (any value, not just one to three) is dispatched by the prefix
match, never reaching the fallback, and renders as that many hash marks, a
space, the inline-rendered rich text, and a newline, with the indentation
argument ignored. -/
theorem C9_heading_numeral (ds : List Char) (h1 : ds ≠ []) (h2 : ds.all Char.isDigit = true)
    (p : Payload) (id1 : String) (hc : Bool) (indent : Nat) :
    block_to_md ⟨id1, "heading_" ++ List.asString ds, some p, hc⟩ indent
      = .ok (pyStrMulNat "#" (digitsVal ds) ++ " "
          ++ rt_to_md (p.rich_text.getD none) ++ "\n") := by
  have hpre : pyStartsWith ("heading_" ++ List.asString ds) "heading_" = true := rfl
  rw [block_to_md_heading _ hpre (some p) id1 hc indent]
  have htl : ("heading_" ++ List.asString ds).toList = "heading".toList ++ '_' :: ds := rfl
  rw [htl]
  have hnosep1 : ∀ c ∈ "heading".toList, c ≠ '_' := by decide
  rw [splitCh_append_sep "heading".toList ds hnosep1]
  have hnosep2 : ∀ c ∈ ds, c ≠ '_' := by
    intro c hcm he
    subst he
    exact absurd (List.all_eq_true.mp h2 _ hcm) (by decide)
  rw [splitCh_no_sep hnosep2]
  simp only [List.getD_cons_succ, List.getD_cons_zero]
  rw [pyInt_of_digits h1 h2]
  simp only [pyStrMul_natCast]

/-- Witness for C9 at the out-of-range heading_4. -/
theorem C9_heading_numeral_witness :
    block_to_md ⟨"h1", "heading_" ++ List.asString ['4'], some (wPayloadOf "T"), false⟩ 7
      = .ok "#### T\n" := by
  exact C9_heading_numeral ['4'] (by decide) (by decide) (wPayloadOf "T") "h1" false 7

/-- C2: the exporter fetches the children of a direct child exactly when
that child reports has_children and its type is not child_page (first
conjunct: the recorded fetches are exactly the filtered ids, in order);
rendering never goes deeper than the second level (second conjunct: the
output only depends on the oracle at the page id and at the ids of the
qualifying children); a qualifying child contributes its own rendering,
its children rendered at indent one, and a trailing blank line (third
conjunct). -/
theorem C2_export_children_rule (kids kids' : String → List Block) (page_id title : String) :
    ((export_page kids page_id title).map Prod.snd
      = (export_page kids page_id title).map
          (fun _ => ((kids page_id).filter
              (fun b => b.has_children && !(b.type == "child_page"))).map Block.id))
    ∧ (kids page_id = kids' page_id →
        (∀ b ∈ kids page_id,
          (b.has_children && !(b.type == "child_page")) = true → kids b.id = kids' b.id) →
        export_page kids page_id title = export_page kids' page_id title)
    ∧ (∀ (b : Block) (s : String) (rs : List String),
        block_to_md b 0 = .ok s →
        (b.has_children && !(b.type == "child_page")) = true →
        renderAll 1 (kids b.id) = .ok rs →
        exportStep kids b = .ok (s ++ strConcat rs ++ "\n", [b.id])) := by
  refine ⟨?_, ?_, ?_⟩
  · cases hel : exportList kids (kids page_id) with
    | error e =>
      rw [export_page_err kids page_id title e hel]
      rfl
    | ok groups =>
      rw [export_page_ok kids page_id title groups hel]
      simp [Except.map, exportList_snd kids (kids page_id) groups hel]
  · intro hpage hkid
    unfold export_page
    rw [← hpage, exportList_congr kids kids' (kids page_id) hkid]
  · intro b s rs hbm hcond hra
    simp only [exportStep, hbm, hcond, if_true, hra]

/-- Witness for C2: on a page with a paragraph (children: one block) and a
child page (children never fetched), only the paragraph's id is fetched,
and changing the oracle at the child page's id and at the grandchild level
does not change the export; the paragraph's group is its rendering, its
child at indent one, and a blank line. -/
theorem C2_export_children_rule_witness :
    ((export_page wKids "page" "T").map Prod.snd
      = (export_page wKids "page" "T").map (fun _ => ["b1"]))
    ∧ export_page wKids "page" "T" = export_page wKids2 "page" "T"
    ∧ exportStep wKids wBlk1 = .ok ("hi\n\n" ++ strConcat ["  k\n\n"] ++ "\n", ["b1"]) := by
  refine ⟨?_, ?_, ?_⟩
  · exact (C2_export_children_rule wKids wKids "page" "T").1
  · refine (C2_export_children_rule wKids wKids2 "page" "T").2.1 rfl ?_
    intro b hb hcond
    have hb' : b = wBlk1 ∨ b = wBlk2 := by
      simpa [wKids] using hb
    rcases hb' with rfl | rfl
    · rfl
    · exact absurd hcond (by decide)
  · exact (C2_export_children_rule wKids wKids "page" "T").2.2 wBlk1 "hi\n\n" ["  k\n\n"]
      rfl rfl rfl

/-- C7: when the credential is absent or empty, main exits fatally with the
distinguished code two and the diagnostic on the error stream, and the
outcome does not depend on the endpoint or on the manifest (so the exit
happens before any network activity and before any manifest entry is
processed); when the credential is present the exit path is not taken and
the manifest is processed; the code two is non-zero. -/
theorem C7_missing_key_fatal (key : Option String) :
    (strTruthy key = false →
      ∀ kids manifest, main key kids manifest = .fatal 2 "Missing NOTION_KEY")
    ∧ (strTruthy key = false →
      ∀ kids kids' manifest manifest', main key kids manifest = main key kids' manifest')
    ∧ (strTruthy key = true →
      ∀ kids manifest, main key kids manifest = .finished (runManifest kids manifest))
    ∧ (2 : Nat) ≠ 0 := by
  refine ⟨?_, ?_, ?_, by decide⟩
  · intro h kids manifest
    simp [main, h]
  · intro h kids kids' manifest manifest'
    simp [main, h]
  · intro h kids manifest
    simp [main, h]

/-- Witness for C7: unset and empty credentials both exit fatally with code
two, independent of endpoint and manifest; a present credential processes
the manifest. -/
theorem C7_missing_key_fatal_witness :
    main none wKids wManifest = .fatal 2 "Missing NOTION_KEY"
    ∧ main (some "") wKids wManifest = .fatal 2 "Missing NOTION_KEY"
    ∧ main none wKids wManifest = main none wKids2 []
    ∧ main (some "tok") wKids wManifest = .finished (runManifest wKids wManifest) := by
  refine ⟨?_, ?_, ?_, ?_⟩
  · exact (C7_missing_key_fatal none).1 rfl wKids wManifest
  · exact (C7_missing_key_fatal (some "")).1 rfl wKids wManifest
  · exact (C7_missing_key_fatal none).2.1 rfl wKids wKids2 wManifest []
  · exact (C7_missing_key_fatal (some "tok")).2.2.1 rfl wKids wManifest

end NotionExport
